import Mathlib

/-!
Verification of the dictation engine in `main.py` (Medical-Dictation).

The document-relevant state of `MedicalDictationApp` is embedded as `AppState`:
the text widget's character content (`buffer`), the `appended_chunks` list
(most recent element first; Python appends and pops at the end of the list),
the widget's tag ranges (`tags`; `append_text` inserts text without adding any
tag, exactly as the source does), and the `capitalize_next` flag.

Interactive confirmation dialogs (`messagebox.askyesno` in `new_session` /
`clear_text`) return their answer synchronously; the answer is threaded in as
an explicit `yes : Bool` argument.  Audio segments, the clipboard and the file
system are outside the document state and are not modelled; operations touching
them (`copy_text`, `save_text`) leave the document state unchanged, as in the
source.
-/

namespace Dictation

/-- Python whitespace characters, the set used by `str.strip()` and
`str.split()` for ASCII text. -/
def isPySpace (c : Char) : Bool :=
  [' ', '\t', '\n', '\r', '\x0b', '\x0c'].contains c

/-- The 32 characters of Python's `string.punctuation`. -/
def pyPunct : List Char :=
  ['!', '\x22', '#', '$', '%', '&', '\x27', '(', ')', '*', '+', ',', '-', '.',
   '/', ':', ';', '<', '=', '>', '?', '@', '[', '\\', ']', '^', '_', '\x60',
   '\x7b', '|', '\x7d', '~']

/-- Python `text.lower()` (ASCII). -/
def lowerL (l : List Char) : List Char := l.map Char.toLower

/-- Python `text.strip()`: drop whitespace from both ends. -/
def pyStrip (l : List Char) : List Char :=
  ((l.dropWhile isPySpace).reverse.dropWhile isPySpace).reverse

/-- Python `text.translate` with a punctuation-deleting table: delete every
punctuation character. -/
def removePunct (l : List Char) : List Char :=
  l.filter (fun c => !pyPunct.contains c)

/-- Helper for `str.split()`: accumulate the current (reversed) token while
scanning the characters. -/
def wordsAux : List Char → List Char → List (List Char)
  | acc, [] => if acc.isEmpty then [] else [acc.reverse]
  | acc, c :: cs =>
    if isPySpace c then
      if acc.isEmpty then wordsAux [] cs else acc.reverse :: wordsAux [] cs
    else wordsAux (c :: acc) cs

/-- Python `current.split()`: split on runs of whitespace, discarding empty tokens. -/
def pyWords (l : List Char) : List (List Char) := wordsAux [] l

/-- Python `.join` of the tokens with a single space. -/
def joinSp : List (List Char) → List Char
  | [] => []
  | t :: ts => t ++ (if ts.isEmpty then joinSp ts else ' ' :: joinSp ts)

/-- The characters `".!?"` tested by `append_text` (`current[-1] in ".!?"`). -/
def sentenceEnders : List Char := ['.', '!', '?']

/-- Test `current[-1] in ".!?"` (false on the empty buffer, where Python's
short-circuit `not current or ...` prevents the indexing). -/
def endsInEnder (l : List Char) : Bool :=
  match l.getLast? with
  | some c => sentenceEnders.contains c
  | none => false

/-- Python `text[0].upper() + text[1:]`. -/
def capFirst : List Char → List Char
  | [] => []
  | c :: cs => c.toUpper :: cs

/-- The separator `(" " if current and current[-1] != "\n" else "")` inserted
before appended text. -/
def sepFor (current : List Char) : List Char :=
  if !current.isEmpty && current.getLast? != some '\n' then [' '] else []

/-- Status messages passed to `update_status` (plus markers for the purely
external effects of `copy_text` / `save_text`). -/
inductive Status where
  | nothingToScratch      -- "Nothing to scratch."
  | lastAddedTextRemoved  -- "Last added text removed."
  | noTaggedText          -- "No tagged text found."
  | textCopied            -- "Text copied to clipboard."
  | saveTextEffect        -- save_text: dialogs / file output, no buffer change
  | audioNotUnderstood    -- "Audio not understood"
  | requestErrorMsg (detail : List Char)  -- "Request error: ..."
  deriving Repr, DecidableEq

/-- The document-relevant state of `MedicalDictationApp`. -/
structure AppState where
  /-- Character content of `self.text_area` (`get("1.0", "end-1c")`). -/
  buffer : List Char
  /-- Mirror of `self.appended_chunks`, most recent first (Python pushes and pops at the
  end of its list). -/
  appended_chunks : List String
  /-- The text widget's tag ranges: `tag_ranges(t)` is the span stored for `t`
  here, if any.  No statement in `main.py` ever calls `tag_add`, so no
  operation below ever inserts into this list. -/
  tags : List (String × Nat × Nat)
  /-- Mirror of `self.capitalize_next`. -/
  capitalize_next : Bool
  deriving Repr, DecidableEq

/-- The state after `__init__`: empty widget, `appended_chunks = []`,
`capitalize_next = False`, no tags. -/
def initState : AppState :=
  { buffer := [], appended_chunks := [], tags := [], capitalize_next := false }

/-- Embedding of `MedicalDictationApp.append_text` (main.py lines 373-380). -/
def append_text (s : AppState) (text : List Char) : AppState :=
  let current := s.buffer
  let doCap := (s.capitalize_next || current.isEmpty || endsInEnder current)
                 && !text.isEmpty
  let text2 := if doCap then capFirst text else text
  let cap2 := if doCap then false else s.capitalize_next
  { s with
    buffer := current ++ sepFor current ++ text2,
    appended_chunks :=
      ("chunk_" ++ toString s.appended_chunks.length) :: s.appended_chunks,
    capitalize_next := cap2 }

/-- Embedding of `text_area.tag_ranges(tag)`: the stored span for `tag`, if any. -/
def lookupTag (tags : List (String × Nat × Nat)) (t : String) :
    Option (Nat × Nat) :=
  match tags.find? (fun p => p.1 == t) with
  | some p => some (p.2.1, p.2.2)
  | none => none

/-- Embedding of `text_area.delete(a, b)`: remove the characters in positions `[a, b)`. -/
def deleteRange (buf : List Char) (a b : Nat) : List Char :=
  buf.take a ++ buf.drop b

/-- Embedding of `MedicalDictationApp.scratch_that` (main.py lines 382-393): pop the last
chunk tag, then delete its tagged range if the widget has one. -/
def scratch_that (s : AppState) : AppState × Status :=
  match s.appended_chunks with
  | [] => (s, Status.nothingToScratch)
  | tag :: rest =>
    match lookupTag s.tags tag with
    | some (a, b) =>
      ({ s with
         buffer := deleteRange s.buffer a b,
         appended_chunks := rest,
         tags := s.tags.filter (fun p => !(p.1 == tag)) },
       Status.lastAddedTextRemoved)
    | none => ({ s with appended_chunks := rest }, Status.noTaggedText)

/-- Embedding of `MedicalDictationApp.delete_last_word` (main.py lines 395-401).  Deleting
the whole widget content removes every tag range, so `tags` becomes empty. -/
def delete_last_word (s : AppState) : AppState :=
  if s.buffer.isEmpty then s
  else { s with buffer := joinSp (pyWords s.buffer).dropLast, tags := [] }

/-- Embedding of `text_area.insert(tk.END, txt)` with no tag. -/
def insertEnd (s : AppState) (txt : List Char) : AppState :=
  { s with buffer := s.buffer ++ txt }

/-- Embedding of `MedicalDictationApp.new_session`: on a confirmed dialog, clear the text
widget (which also clears every tag range) and `appended_chunks`. -/
def new_session (s : AppState) (yes : Bool) : AppState :=
  if yes then { s with buffer := [], appended_chunks := [], tags := [] } else s

/-- Embedding of `MedicalDictationApp.clear_text`: same document effect as `new_session`. -/
def clear_text (s : AppState) (yes : Bool) : AppState :=
  if yes then { s with buffer := [], appended_chunks := [], tags := [] } else s

/-- Identifiers for the 18 actions stored in the `commands` dict of
`handle_recognized_text` (main.py lines 460-479). -/
inductive Cmd where
  | newParagraph | newLine | fullStop | comma | questionMark
  | exclamationPoint | semicolon | colon | openQuote | closeQuote
  | openParen | closeParen | deleteLastWord | scratchThat | newDictation
  | clearText | copyText | saveText
  deriving Repr, DecidableEq

/-- The `commands` dict of `handle_recognized_text` (main.py lines 460-479):
each key paired with the identifier of the action bound to it. -/
def commandTable : List (List Char × Cmd) :=
  [("new paragraph".toList, Cmd.newParagraph),
   ("new line".toList, Cmd.newLine),
   ("full stop".toList, Cmd.fullStop),
   ("comma".toList, Cmd.comma),
   ("question mark".toList, Cmd.questionMark),
   ("exclamation point".toList, Cmd.exclamationPoint),
   ("semicolon".toList, Cmd.semicolon),
   ("colon".toList, Cmd.colon),
   ("open quote".toList, Cmd.openQuote),
   ("close quote".toList, Cmd.closeQuote),
   ("open parenthesis".toList, Cmd.openParen),
   ("close parenthesis".toList, Cmd.closeParen),
   ("delete last word".toList, Cmd.deleteLastWord),
   ("scratch that".toList, Cmd.scratchThat),
   ("new dictation".toList, Cmd.newDictation),
   ("clear text".toList, Cmd.clearText),
   ("copy text".toList, Cmd.copyText),
   ("save text".toList, Cmd.saveText)]

/-- The keys of the `commands` dict. -/
def commandPhrases : List (List Char) := commandTable.map Prod.fst

/-- Dictionary lookup: the action bound to a phrase, if the phrase is a key. -/
def cmdOf? (c : List Char) : Option Cmd :=
  (commandTable.find? (fun p => p.1 == c)).map Prod.snd

/-- The `cleaned` expression of main.py line 480: lowercase, then trim, then delete punctuation. -/
def normalize (l : List Char) : List Char :=
  removePunct (pyStrip (lowerL l))

/-- The normalization in the order the specification words it: lowercase,
strip all punctuation, then trim.  Stated only to compare against the
source's `normalize` (which trims before deleting punctuation). -/
def normalizeSpecOrder (l : List Char) : List Char :=
  pyStrip (removePunct (lowerL l))

/-- How `handle_recognized_text` classifies a recognized text. -/
inductive Dispatch where
  | blank                    -- `not text.strip()`: early return
  | command (c : List Char)  -- `cleaned in commands`
  | literal (t : List Char)  -- fallthrough to `append_text(text)`
  deriving Repr, DecidableEq

/-- The classification performed by `handle_recognized_text`
(main.py lines 457-484): blank check on the raw text, then normalized
lookup in the command table. -/
def classify (l : List Char) : Dispatch :=
  if (pyStrip l).isEmpty then Dispatch.blank
  else
    match cmdOf? (normalize l) with
    | some _ => Dispatch.command (normalize l)
    | none => Dispatch.literal l

/-- Execute one action of the `commands` dict.  `yes` is the answer of the
`askyesno` dialog shown by `new dictation` / `clear text`. -/
def runCmd (s : AppState) (k : Cmd) (yes : Bool) : AppState × Option Status :=
  match k with
  | Cmd.newParagraph => (insertEnd s "\n\n".toList, none)
  | Cmd.newLine => (insertEnd s "\n".toList, none)
  | Cmd.fullStop => (insertEnd s ". ".toList, none)
  | Cmd.comma => (insertEnd s ", ".toList, none)
  | Cmd.questionMark => (insertEnd s "? ".toList, none)
  | Cmd.exclamationPoint => (insertEnd s "! ".toList, none)
  | Cmd.semicolon => (insertEnd s "; ".toList, none)
  | Cmd.colon => (insertEnd s ": ".toList, none)
  | Cmd.openQuote => (insertEnd s "\x22".toList, none)
  | Cmd.closeQuote => (insertEnd s "\x22".toList, none)
  | Cmd.openParen => (insertEnd s "(".toList, none)
  | Cmd.closeParen => (insertEnd s ")".toList, none)
  | Cmd.deleteLastWord => (delete_last_word s, none)
  | Cmd.scratchThat => ((scratch_that s).1, some (scratch_that s).2)
  | Cmd.newDictation => (new_session s yes, none)
  | Cmd.clearText => (clear_text s yes, none)
  | Cmd.copyText => (s, some Status.textCopied)
  | Cmd.saveText => (s, some Status.saveTextEffect)

/-- Embedding of `MedicalDictationApp.handle_recognized_text`
(main.py lines 457-484): early return on blank text, command dispatch via
`commands[cleaned]()` when `cleaned in commands`, else `append_text(text)`. -/
def handle_recognized_text (s : AppState) (text : List Char) (yes : Bool) :
    AppState × Option Status :=
  match classify text with
  | Dispatch.blank => (s, none)
  | Dispatch.command c =>
    match cmdOf? c with
    | some k => runCmd s k yes
    | none => (s, none)
  | Dispatch.literal t => (append_text s t, none)

/-- The terminal outcome of one transcription worker in `process_audio`:
a transcript, `sr.UnknownValueError`, or `sr.RequestError`. -/
inductive RecogOutcome where
  | transcript (t : List Char)
  | unknownValue
  | requestError (detail : List Char)
  deriving Repr, DecidableEq

/-- The document effect of `MedicalDictationApp.process_audio`
(main.py lines 431-455) once its scheduled callback runs on the main thread:
a transcript goes to `handle_recognized_text`; either error path only posts a
status message. -/
def process_audio (s : AppState) (r : RecogOutcome) (yes : Bool) :
    AppState × Option Status :=
  match r with
  | RecogOutcome.transcript t => handle_recognized_text s t yes
  | RecogOutcome.unknownValue => (s, some Status.audioNotUnderstood)
  | RecogOutcome.requestError d => (s, some (Status.requestErrorMsg d))

/-- Fold the per-result document effect over a list of worker outcomes, in the
order their `self.after(0, ...)` callbacks run (completion order: Tk executes
the scheduled callbacks first-in first-out). -/
def processResults (s : AppState) (rs : List RecogOutcome) : AppState :=
  rs.foldl (fun st r => (process_audio st r true).1) s

/-- Apply the transcripts of `chunks` in the order given by `order` (a list of
indices): the code applies each result when its worker completes, so `order`
is the completion order.  Dialog-free transcripts never consult `yes`. -/
def applyInOrder (chunks : List (List Char)) (order : List Nat)
    (s : AppState) : AppState :=
  order.foldl (fun st i => (handle_recognized_text st (chunks.getD i []) true).1) s


/-! ### Helper lemmas -/

/-- Every token produced by `wordsAux` consists of non-whitespace characters,
provided the accumulator does. -/
theorem wordsAux_no_space (l : List Char) :
    ∀ acc : List Char, (∀ c ∈ acc, isPySpace c = false) →
      ∀ t ∈ wordsAux acc l, ∀ c ∈ t, isPySpace c = false := by
  induction l with
  | nil =>
    intro acc hacc t ht c hc
    unfold wordsAux at ht
    by_cases he : acc.isEmpty <;> simp [he] at ht
    subst ht
    exact hacc c (List.mem_reverse.mp hc)
  | cons d ds ih =>
    intro acc hacc t ht c hc
    unfold wordsAux at ht
    by_cases hd : isPySpace d
    · simp only [hd, if_true] at ht
      by_cases he : acc.isEmpty <;> simp [he] at ht
      · exact ih [] (by simp) t ht c hc
      · rcases ht with rfl | ht
        · exact hacc c (List.mem_reverse.mp hc)
        · exact ih [] (by simp) t ht c hc
    · simp only [hd, if_false] at ht
      refine ih (d :: acc) ?_ t ht c hc
      intro x hx
      rcases List.mem_cons.mp hx with rfl | hx
      · exact Bool.not_eq_true _ ▸ eq_false_of_ne_true hd
      · exact hacc x hx

/-- Every token of `pyWords` consists of non-whitespace characters. -/
theorem pyWords_no_space (l : List Char) :
    ∀ t ∈ pyWords l, ∀ c ∈ t, isPySpace c = false :=
  wordsAux_no_space l [] (by simp)

/-- Characters of a space-join are spaces or characters of some token. -/
theorem mem_joinSp {c : Char} :
    ∀ {ts : List (List Char)}, c ∈ joinSp ts → c = ' ' ∨ ∃ t ∈ ts, c ∈ t := by
  intro ts
  induction ts with
  | nil => intro h; simp [joinSp] at h
  | cons t ts ih =>
    intro hc
    unfold joinSp at hc
    rcases List.mem_append.mp hc with h1 | h2
    · exact Or.inr ⟨t, List.mem_cons_self t ts, h1⟩
    · by_cases he : ts.isEmpty
      · simp only [he, if_true] at h2
        rcases ih h2 with h3 | ⟨u, hu, hcu⟩
        · exact Or.inl h3
        · exact Or.inr ⟨u, List.mem_cons_of_mem t hu, hcu⟩
      · simp only [he, if_false] at h2
        rcases List.mem_cons.mp h2 with rfl | h3
        · exact Or.inl rfl
        · rcases ih h3 with h4 | ⟨u, hu, hcu⟩
          · exact Or.inl h4
          · exact Or.inr ⟨u, List.mem_cons_of_mem t hu, hcu⟩

/-- Membership in `dropLast` implies membership in the list. -/
theorem mem_of_mem_dropLast {α : Type} :
    ∀ {l : List α} {a : α}, a ∈ l.dropLast → a ∈ l := by
  intro l
  induction l with
  | nil => intro a h; simp at h
  | cons x xs ih =>
    intro a h
    cases xs with
    | nil => simp at h
    | cons y ys =>
      rw [List.dropLast_cons₂] at h
      rcases List.mem_cons.mp h with rfl | h2
      · exact List.mem_cons_self _ _
      · exact List.mem_cons_of_mem _ (ih h2)

/-- The buffer produced by `delete_last_word` on a non-empty buffer. -/
theorem delete_last_word_buffer (s : AppState) (h : s.buffer ≠ []) :
    (delete_last_word s).buffer = joinSp (pyWords s.buffer).dropLast := by
  unfold delete_last_word
  rw [if_neg]
  simp [List.isEmpty_iff, h]

/-- `scratch_that` never changes `capitalize_next`. -/
theorem scratch_that_capitalize_next (s : AppState) :
    (scratch_that s).1.capitalize_next = s.capitalize_next := by
  unfold scratch_that
  cases h : s.appended_chunks with
  | nil => rfl
  | cons tag rest =>
    cases h2 : lookupTag s.tags tag with
    | none => simp [h2]
    | some ab => rcases ab with ⟨a, b⟩; simp [h2]

/-- `delete_last_word` never changes `capitalize_next`. -/
theorem delete_last_word_capitalize_next (s : AppState) :
    (delete_last_word s).capitalize_next = s.capitalize_next := by
  unfold delete_last_word
  split <;> rfl

/-- No command action changes `capitalize_next`. -/
theorem runCmd_capitalize_next (s : AppState) (k : Cmd) (y : Bool) :
    (runCmd s k y).1.capitalize_next = s.capitalize_next := by
  cases k <;>
    simp [runCmd, insertEnd, new_session, clear_text,
          scratch_that_capitalize_next, delete_last_word_capitalize_next] <;>
    split <;> rfl

/-- `append_text` keeps a false `capitalize_next` false. -/
theorem append_text_capitalize_next (s : AppState) (t : List Char)
    (h : s.capitalize_next = false) :
    (append_text s t).capitalize_next = false := by
  unfold append_text
  simp only [h]
  split <;> rfl

/-- `handle_recognized_text` keeps a false `capitalize_next` false. -/
theorem handle_capitalize_next (s : AppState) (t : List Char) (y : Bool)
    (h : s.capitalize_next = false) :
    (handle_recognized_text s t y).1.capitalize_next = false := by
  unfold handle_recognized_text
  cases hc : classify t with
  | blank => simpa using h
  | command c =>
    cases hk : cmdOf? c with
    | none => simpa [hk] using h
    | some k => simpa [hk, runCmd_capitalize_next] using h
  | literal l => simpa using append_text_capitalize_next s l h

/-- Lookup in the `commands` dict succeeds exactly for its keys. -/
theorem cmdOf?_isSome_iff (c : List Char) :
    (cmdOf? c).isSome = true ↔ c ∈ commandPhrases := by
  unfold cmdOf? commandPhrases
  rw [Option.isSome_map', List.find?_isSome]
  constructor
  · rintro ⟨x, hx, hpx⟩
    exact List.mem_map.mpr ⟨x, hx, beq_iff_eq.mp hpx⟩
  · intro hmem
    rcases List.mem_map.mp hmem with ⟨x, hx, hfx⟩
    exact ⟨x, hx, beq_iff_eq.mpr hfx⟩

/-! ### Claims -/

/-- C1, counterexample: with chunks 0 = "hello", 1 = "full stop",
2 = "world" (the spec's own scenario) and completion order 1,0,2, the final
buffer differs from the buffer produced by applying the chunks in sequence
order 0,1,2 — application is completion-order dependent, refuting the claimed
completion-order independence. -/
theorem c1_counterexample :
    (applyInOrder ["hello".toList, "full stop".toList, "world".toList]
        [1, 0, 2] initState).buffer ≠
      (applyInOrder ["hello".toList, "full stop".toList, "world".toList]
        [0, 1, 2] initState).buffer := by
  decide

/-- C1, amended: transcription results are applied to the buffer in worker
completion order (the code has no sequence numbers and no reorder window), so
the final content depends on the completion permutation: for the scenario
chunks, completion order 1,0,2 yields ".  hello world" while sequence order
0,1,2 yields "Hello.  world". -/
theorem c1_applied_in_completion_order :
    (applyInOrder ["hello".toList, "full stop".toList, "world".toList]
        [1, 0, 2] initState).buffer = ".  hello world".toList ∧
      (applyInOrder ["hello".toList, "full stop".toList, "world".toList]
        [0, 1, 2] initState).buffer = "Hello.  world".toList := by
  decide

/-- C2, counterexample: appending the literal text "hi." to the initial state
leaves the buffer ending in '.' while `capitalize_next` is false (no code path
ever sets the flag to true), refuting the claimed iff. -/
theorem c2_counterexample :
    (append_text initState "hi.".toList).buffer.getLast? = some '.' ∧
      (append_text initState "hi.".toList).capitalize_next = false := by
  decide

/-- C2, amended: starting from a state whose `capitalize_next` is false (as
it is initially), every literal append and every recognized-text handling
leaves it false, and the capitalization of an appended text is decided by
reading the buffer directly: the first character is uppercased iff the buffer
is empty or its last character is one of '.', '!', '?'. -/
theorem c2_capitalization_decided_by_buffer (s : AppState) (t : List Char)
    (y : Bool) (h : s.capitalize_next = false) :
    (append_text s t).capitalize_next = false ∧
      (handle_recognized_text s t y).1.capitalize_next = false ∧
      (append_text s t).buffer =
        s.buffer ++ sepFor s.buffer ++
          (if (s.buffer.isEmpty || endsInEnder s.buffer) && !t.isEmpty
            then capFirst t else t) := by
  refine ⟨append_text_capitalize_next s t h, handle_capitalize_next s t y h, ?_⟩
  unfold append_text
  simp only [h, Bool.false_or]

/-- C2, witness: the amended statement applied at the initial state. -/
theorem c2_witness :
    (append_text initState "ok".toList).capitalize_next = false :=
  (c2_capitalization_decided_by_buffer initState "ok".toList true rfl).1

/-- C3: the code evaluated at the claimed scenario.  After "hello" the buffer
is "Hello", but "scratch that" leaves the buffer unchanged (status "No tagged
text found") because `append_text` never adds the popped tag to the widget —
the deletion branch of `scratch_that` is unreachable. -/
theorem c3_scratch_does_not_delete :
    (handle_recognized_text initState "hello".toList true).1.buffer
        = "Hello".toList ∧
      (handle_recognized_text
          (handle_recognized_text initState "hello".toList true).1
          "scratch that".toList true).1.buffer = "Hello".toList ∧
      (handle_recognized_text
          (handle_recognized_text initState "hello".toList true).1
          "scratch that".toList true).2 = some Status.noTaggedText := by
  decide

/-- C5: with an empty insertion stack, `scratch_that` returns the state
unchanged with the no-op status ("Nothing to scratch.", the code's form of
NothingToUndo), and any number of repeated calls leaves the state fixed. -/
theorem c5_undo_noop_on_empty_stack (s : AppState) (n : Nat)
    (h : s.appended_chunks = []) :
    scratch_that s = (s, Status.nothingToScratch) ∧
      (fun t => (scratch_that t).1)^[n] s = s := by
  have h1 : scratch_that s = (s, Status.nothingToScratch) := by
    unfold scratch_that
    simp only [h]
  refine ⟨h1, ?_⟩
  induction n with
  | zero => simp
  | succ m ih =>
    rw [Function.iterate_succ_apply]
    simpa [h1] using ih

/-- C5, witness: three undos on the initial state. -/
theorem c5_witness :
    scratch_that initState = (initState, Status.nothingToScratch) ∧
      (fun t => (scratch_that t).1)^[3] initState = initState :=
  c5_undo_noop_on_empty_stack initState 3 rfl

/-- C6, counterexample: an Ok result whose text is blank after trimming is
dropped with no status notification at all (`handle_recognized_text` returns
silently), refuting the claim that a status notification is surfaced. -/
theorem c6_counterexample :
    process_audio initState (RecogOutcome.transcript "   ".toList) true
      = (initState, none) := by
  decide

/-- C6, amended: a non-Ok result (Unrecognized or a transport error) mutates
nothing and surfaces a status notification; an Ok result whose text is blank
after trimming mutates nothing and surfaces no notification; in both cases
processing of subsequent results continues unaffected. -/
theorem c6_non_ok_or_blank_no_mutation (s : AppState) (d t : List Char)
    (y : Bool) (rest : List RecogOutcome) (h : pyStrip t = []) :
    process_audio s RecogOutcome.unknownValue y
        = (s, some Status.audioNotUnderstood) ∧
      process_audio s (RecogOutcome.requestError d) y
        = (s, some (Status.requestErrorMsg d)) ∧
      process_audio s (RecogOutcome.transcript t) y = (s, none) ∧
      processResults s (RecogOutcome.unknownValue :: rest)
        = processResults s rest ∧
      processResults s (RecogOutcome.transcript t :: rest)
        = processResults s rest := by
  have hb : ∀ y2 : Bool, process_audio s (RecogOutcome.transcript t) y2
      = (s, none) := by
    intro y2
    unfold process_audio handle_recognized_text classify
    simp [h]
  refine ⟨rfl, rfl, hb y, ?_, ?_⟩
  · simp [processResults, process_audio]
  · simp [processResults, hb true]

/-- C6, witness: the amended statement applied at the initial state with a
blank transcript. -/
theorem c6_witness :
    process_audio initState (RecogOutcome.transcript " ".toList) true
      = (initState, none) :=
  (c6_non_ok_or_blank_no_mutation initState [] " ".toList true []
    (by decide)).2.2.1

/-- C7: the code evaluated at the claimed round trip.  Appending "world" to
the empty buffer and immediately undoing does not restore the prior snapshot:
the buffer stays "World" because the inserted span carries no tag. -/
theorem c7_append_undo_roundtrip_fails :
    (append_text initState "world".toList).buffer = "World".toList ∧
      (scratch_that (append_text initState "world".toList)).1.buffer
        = "World".toList ∧
      (scratch_that (append_text initState "world".toList)).1.buffer
        ≠ initState.buffer := by
  decide

/-- C8: on a non-empty buffer, "delete last word" replaces the whole buffer
by the whitespace-split tokens minus the last one, rejoined with single
spaces. -/
theorem c8_delete_last_word_spec (s : AppState) (h : s.buffer ≠ []) :
    (delete_last_word s).buffer = joinSp (pyWords s.buffer).dropLast :=
  delete_last_word_buffer s h

/-- C8, witness: the spec scenario "testing one two" becomes "testing one". -/
theorem c8_witness :
    (delete_last_word
        (AppState.mk "testing one two".toList [] [] false)).buffer
      = "testing one".toList :=
  (c8_delete_last_word_spec _ (by decide)).trans (by decide)

/-- C9: after "delete last word" on a non-empty buffer, the buffer contains
no newline character: every whitespace run, including paragraph breaks, is
collapsed into single spaces. -/
theorem c9_no_newline_after_delete_last_word (s : AppState)
    (h : s.buffer ≠ []) : '\n' ∉ (delete_last_word s).buffer := by
  intro hmem
  rw [delete_last_word_buffer s h] at hmem
  rcases mem_joinSp hmem with h1 | ⟨u, hu, hcu⟩
  · exact absurd h1 (by decide)
  · have h2 := pyWords_no_space s.buffer u (mem_of_mem_dropLast hu) '\n' hcu
    simp [isPySpace] at h2

/-- C9, witness: a buffer holding a newline from a "new line" command. -/
theorem c9_witness :
    '\n' ∉ (delete_last_word
        (AppState.mk "a\nb c".toList [] [] false)).buffer :=
  c9_no_newline_after_delete_last_word _ (by decide)

/-- C10: on a non-empty insertion stack, `scratch_that` always removes
exactly one record from the top; when no tagged span exists for it (as is the
case in every reachable state), the buffer is untouched and the status is
"No tagged text found". -/
theorem c10_scratch_always_pops (s : AppState) (tag : String)
    (rest : List String) (h : s.appended_chunks = tag :: rest) :
    (scratch_that s).1.appended_chunks = rest ∧
      (lookupTag s.tags tag = none →
        (scratch_that s).1 = { s with appended_chunks := rest } ∧
          (scratch_that s).2 = Status.noTaggedText) := by
  unfold scratch_that
  simp only [h]
  cases h2 : lookupTag s.tags tag with
  | none => simp [h2]
  | some ab => rcases ab with ⟨a, b⟩; simp [h2]

/-- C10, witness: one stacked record, no tags, buffer "Hello". -/
theorem c10_witness :
    (scratch_that (AppState.mk "Hello".toList ["chunk_0"] [] false)).1
        = AppState.mk "Hello".toList [] [] false ∧
      (scratch_that (AppState.mk "Hello".toList ["chunk_0"] [] false)).2
        = Status.noTaggedText :=
  (c10_scratch_always_pops _ "chunk_0" [] rfl).2 rfl

/-- C4, counterexample: for the input "full stop ." the spec's normalization
(lowercase, strip punctuation, trim) yields "full stop", a command-table key,
yet the code classifies the input as literal text: its normalization trims
before deleting punctuation, leaving the non-key "full stop ". -/
theorem c4_counterexample :
    normalizeSpecOrder "full stop .".toList ∈ commandPhrases ∧
      classify "full stop .".toList
        = Dispatch.literal "full stop .".toList := by
  decide

/-- C4, amended: the interpreter normalizes recognized text as lowercase,
then trim, then strip punctuation, and executes a command action exactly when
this normalized text is a command-table key; in particular "Full Stop." and
"full stop" normalize identically and execute the same action. -/
theorem c4_commands_keyed_by_normalized_text :
    (∀ l : List Char, (pyStrip l).isEmpty = false →
        ((∃ c, classify l = Dispatch.command c) ↔
          normalize l ∈ commandPhrases)) ∧
      normalize "Full Stop.".toList = normalize "full stop".toList := by
  constructor
  · intro l hl
    unfold classify
    rw [hl]
    cases hk : cmdOf? (normalize l) with
    | none =>
      simp only [hk, Bool.false_eq_true, if_false]
      constructor
      · rintro ⟨c, hc⟩
        cases hc
      · intro hmem
        have hs := (cmdOf?_isSome_iff (normalize l)).mpr hmem
        rw [hk] at hs
        cases hs
    | some k =>
      simp only [hk, Bool.false_eq_true, if_false]
      exact ⟨fun _ => (cmdOf?_isSome_iff (normalize l)).mp (by rw [hk]; rfl),
             fun _ => ⟨normalize l, rfl⟩⟩
  · decide

/-- C4, witness: "Full Stop." is dispatched as a command. -/
theorem c4_witness :
    ∃ c, classify "Full Stop.".toList = Dispatch.command c :=
  (c4_commands_keyed_by_normalized_text.1 "Full Stop.".toList
      (by decide)).mpr (by decide)

end Dictation
